import Mathlib

/-!
Verification development for the rustybin paste service
(src/db.rs: the paste repository; src/main.rs: the per-IP rate limiter).

The Rust code is shallowly embedded:
* `chrono::DateTime<Utc>` is a pair of a whole-second timestamp and a
  nanosecond part; `timestamp()` drops the sub-second part and
  `DateTime::from_timestamp(secs, 0)` rebuilds a value with zero nanoseconds,
  exactly as in chrono.
* The SQLite `pastes` table is a list of rows; `SELECT ... WHERE id = ?`
  is a first-match lookup, `DELETE ... WHERE id = ?` removes every matching
  row, and `INSERT` with a duplicate primary key fails (the Rust code then
  panics through `.expect`). A panic is modelled as `none` in an outer
  `Option`.
* SQLite calls that can fail (`prepare`, `bind`, `next`, `read`) are given
  explicit fault flags so that the error paths of the Rust code
  (`.ok()?`, `.unwrap()`, `.unwrap_or(0)`) can be exercised.
* `rand`'s `Alphanumeric` distribution produces uniformly random indices
  into a fixed 62-character table; the random indices are passed in as an
  explicit list of `Fin 62` samples.
-/

namespace RustyBin

/-- Model of `chrono::DateTime<Utc>`: whole seconds since the epoch plus a
nanosecond part. Equality is equality of the instant, as in chrono. -/
structure DateTime where
  secs : Int
  nanos : Nat
deriving DecidableEq, Repr

/-- `DateTime::<Utc>::MIN_UTC.timestamp()` in chrono: the smallest second
count accepted by `DateTime::from_timestamp`. -/
def DateTime.minTimestamp : Int := -8334601228800

/-- `DateTime::<Utc>::MAX_UTC.timestamp()` in chrono: the largest second
count accepted by `DateTime::from_timestamp`. -/
def DateTime.maxTimestamp : Int := 8210266876799

/-- `created_at.timestamp()`: the whole-second part of the instant. -/
def DateTime.timestamp (t : DateTime) : Int := t.secs

/-- `DateTime::from_timestamp(secs, 0)`: succeeds on in-range second counts,
returning the instant with a zero sub-second part. -/
def DateTime.fromTimestamp (secs : Int) : Option DateTime :=
  if DateTime.minTimestamp ≤ secs ∧ secs ≤ DateTime.maxTimestamp then
    some ⟨secs, 0⟩
  else
    none

/-- The `Paste` struct of db.rs. -/
structure Paste where
  id : String
  data : String
  language : String
  created_at : DateTime
  encryption_version : Nat
deriving DecidableEq, Repr

/-- The `CreatePasteData` struct of db.rs. -/
structure CreatePasteData where
  data : String
  language : String
deriving DecidableEq, Repr

/-- The `DbError` enum of db.rs (`Io` is spelled `IoErr` here). -/
inductive DbError
  | Sqlite
  | IoErr
  | Serialization
  | ClientEncryptionRequired
deriving DecidableEq, Repr

/-- `ENCRYPTION_VERSION_CLIENT` constant of db.rs. -/
def ENCRYPTION_VERSION_CLIENT : Nat := 1

/-- One row of the SQLite `pastes` table. `created_at` and
`encryption_version` are stored as SQLite INTEGERs (64-bit signed), hence
`Int` here. -/
structure DbRow where
  id : String
  data : String
  language : String
  created_at : Int
  encryption_version : Int
deriving DecidableEq, Repr

/-- The `pastes` table. -/
abbrev DbState := List DbRow

/-- `SELECT ... FROM pastes WHERE id = ?`: the first row with the given id. -/
def findRow (s : DbState) (id : String) : Option DbRow :=
  s.find? (fun r => r.id == id)

/-- The 62-character table used by rand's `Alphanumeric` distribution. -/
def alphanumericCharset : List Char :=
  "ABCDEFGHIJKLMNOPQRSTUVWXYZabcdefghijklmnopqrstuvwxyz0123456789".toList

/-- One `Alphanumeric` sample: index a uniformly random `Fin 62` into the
character table. -/
def sampleAlphanumeric (n : Fin 62) : Char :=
  alphanumericCharset.getD n.val 'A'

/-- The id generation of `create_paste`:
`rand::thread_rng().sample_iter(&Alphanumeric).take(6).map(char::from).collect()`.
The infinite sample iterator is passed in as a list of samples (of length at
least 6 in any real execution). -/
def genId (samples : List (Fin 62)) : String :=
  String.mk ((samples.take 6).map sampleAlphanumeric)

/-- `Database::store_client_encrypted_paste`. The `fault` flag injects a
failure of any of the SQLite calls on this path (`prepare`, `bind`, `next`);
each such failure, like an INSERT conflict on a duplicate primary key, makes
the Rust code panic through `.unwrap()` / `.expect`, modelled as `none`. On
success the row is appended with `encryption_version = 1` and the `Paste` is
rebuilt in memory from the inputs (keeping the full-precision `created_at`,
while the row stores only `created_at.timestamp()`). -/
def store_client_encrypted_paste (s : DbState) (fault : Bool) (id data language : String)
    (created_at : DateTime) : Option (DbState × Paste) :=
  if fault || (findRow s id).isSome then
    none
  else
    some (s ++ [⟨id, data, language, created_at.timestamp, (ENCRYPTION_VERSION_CLIENT : Int)⟩],
          ⟨id, data, language, created_at, ENCRYPTION_VERSION_CLIENT⟩)

/-- `Database::create_paste`. The random samples and the current time are
explicit inputs; `fault` is passed through to the store step. -/
def create_paste (s : DbState) (samples : List (Fin 62)) (now : DateTime) (fault : Bool)
    (paste_data : CreatePasteData) : Option (DbState × Except DbError Paste) :=
  let id := genId samples
  if !paste_data.data.isEmpty then
    match store_client_encrypted_paste s fault id paste_data.data paste_data.language now with
    | some (s2, paste) => some (s2, Except.ok paste)
    | none => none
  else
    some (s, Except.error DbError.ClientEncryptionRequired)

/-- Fault flags for the SQLite calls made by `get_encrypted_paste`, in the
order the Rust code makes them: `prepare`, `bind`, `next`, then the four
column reads. -/
structure GetFaults where
  prepareFails : Bool := false
  bindFails : Bool := false
  stepFails : Bool := false
  readDataFails : Bool := false
  readLangFails : Bool := false
  readCreatedFails : Bool := false
  readVersionFails : Bool := false
deriving DecidableEq, Repr

/-- The fault-free execution of `get_encrypted_paste`. -/
def noFaults : GetFaults := {}

/-- `Database::get_encrypted_paste`. Failures of `prepare`, `bind`, `next`
and the first three column reads are turned into `None` by `.ok()?`; a
failed read of `encryption_version` defaults to 0 via `.ok().unwrap_or(0)`.
The stored 64-bit version is cast `as u8`, i.e. reduced mod 256, before the
comparison with `ENCRYPTION_VERSION_CLIENT`. A stored timestamp that
`DateTime::from_timestamp` rejects is replaced by the current time
(`unwrap_or_else(|| Utc::now())`), passed in as `currentTime`. -/
def get_encrypted_paste (s : DbState) (f : GetFaults) (currentTime : DateTime) (id : String) :
    Option (String × String × DateTime) :=
  if f.prepareFails then none
  else if f.bindFails then none
  else if f.stepFails then none
  else
    match findRow s id with
    | some row =>
      if f.readDataFails then none
      else if f.readLangFails then none
      else if f.readCreatedFails then none
      else
        let data := row.data
        let language := row.language
        let created_at := row.created_at
        let encryption_version : Int :=
          if f.readVersionFails then 0 else row.encryption_version % 256
        if encryption_version = (ENCRYPTION_VERSION_CLIENT : Int) then
          let timestamp := (DateTime.fromTimestamp created_at).getD currentTime
          some (data, language, timestamp)
        else
          none
    | none => none

/-- `Database::get_paste`: wraps `get_encrypted_paste`, echoing the lookup
id and the constant `ENCRYPTION_VERSION_CLIENT` into the returned `Paste`. -/
def get_paste (s : DbState) (f : GetFaults) (currentTime : DateTime) (id : String) :
    Option Paste :=
  match get_encrypted_paste s f currentTime id with
  | some (encrypted_data, language, created_at) =>
    some ⟨id, encrypted_data, language, created_at, ENCRYPTION_VERSION_CLIENT⟩
  | none => none

/-- Fault flags for the SQLite calls made by `delete_paste`. -/
structure DeleteFaults where
  prepareFails : Bool := false
  bindFails : Bool := false
  stepFails : Bool := false
deriving DecidableEq, Repr

/-- The fault-free execution of `delete_paste`. -/
def noDeleteFaults : DeleteFaults := {}

/-- `Database::delete_paste`. `prepare` failure panics through `.unwrap()`
(`none`); a `bind` failure is discarded by `.ok()`, leaving the parameter
as SQL NULL, which matches no row, so the statement still runs and the
function returns `true`; if `next` errors the function returns `false`
(state unchanged); otherwise every row with the id is removed and the
result is `true` — the affected-row count is never consulted. -/
def delete_paste (s : DbState) (f : DeleteFaults) (id : String) : Option (DbState × Bool) :=
  if f.prepareFails then none
  else if f.stepFails then some (s, false)
  else if f.bindFails then some (s, true)
  else some (s.filter (fun r => r.id != id), true)

/-! The rate limiter of main.rs. `Instant` is a monotonic clock value,
modelled as a `Nat` count of whole seconds (every duration in the code is a
whole number of seconds, so `as_secs` is the identity on them and `as u32`
is a reduction mod 2^32); `Instant::duration_since` saturates at zero, as
`Nat` subtraction does. The three `HashMap<IpAddr, u32>`s are association
lists; `u32` counts cannot overflow because a count is only incremented
while strictly below its `u32` limit. -/

/-- HTTP methods distinguished by `check_and_update`'s `match`. -/
inductive Method
  | GET
  | POST
  | DELETE
  | PUT
  | OPTIONS
deriving DecidableEq, Repr

/-- Client addresses: any hashable identifier; a string here. -/
abbrev IpAddr := String

/-- The immutable configuration part of `AppRateLimiter`: the three limits
and `reset_interval` (always `Duration::from_secs(60)` in `new`). -/
structure AppRateLimiterConfig where
  read_limit : Nat
  create_limit : Nat
  delete_limit : Nat
  reset_interval : Nat
deriving DecidableEq, Repr

/-- The mutable state of `AppRateLimiter`: the three per-class counter maps
and `last_reset`. -/
structure AppRateLimiterState where
  read_limiter : List (IpAddr × Nat)
  create_limiter : List (IpAddr × Nat)
  delete_limiter : List (IpAddr × Nat)
  last_reset : Nat
deriving DecidableEq, Repr

/-- The three operation classes (the arms of the `match` on the method). -/
inductive OpClass
  | read
  | create
  | delete
deriving DecidableEq, Repr

/-- Which (limiter, limit) pair `check_and_update` selects: GET → read,
POST → create, DELETE → delete, anything else → read. -/
def classOf : Method → OpClass
  | .GET => .read
  | .POST => .create
  | .DELETE => .delete
  | _ => .read

/-- The limit of an operation class. -/
def limitOf (cfg : AppRateLimiterConfig) : OpClass → Nat
  | .read => cfg.read_limit
  | .create => cfg.create_limit
  | .delete => cfg.delete_limit

/-- The counter map of an operation class. -/
def mapOf (s : AppRateLimiterState) : OpClass → List (IpAddr × Nat)
  | .read => s.read_limiter
  | .create => s.create_limiter
  | .delete => s.delete_limiter

/-- Replace the counter map of an operation class. -/
def setMapOf (s : AppRateLimiterState) : OpClass → List (IpAddr × Nat) → AppRateLimiterState
  | .read, m => { s with read_limiter := m }
  | .create, m => { s with create_limiter := m }
  | .delete, m => { s with delete_limiter := m }

/-- The count stored for an address (0 when absent, matching the
`or_insert(0)` default). -/
def ipGet (m : List (IpAddr × Nat)) (ip : IpAddr) : Nat :=
  match m.find? (fun p => p.1 == ip) with
  | some p => p.2
  | none => 0

/-- `map.entry(*ip).or_insert(0)`: materialise the entry with count 0 when
absent. -/
def ipEntryOrInsert (m : List (IpAddr × Nat)) (ip : IpAddr) : List (IpAddr × Nat) :=
  if (m.find? (fun p => p.1 == ip)).isSome then m else (ip, 0) :: m

/-- Overwrite the count stored for an (already present) address. -/
def ipSet (m : List (IpAddr × Nat)) (ip : IpAddr) (v : Nat) : List (IpAddr × Nat) :=
  m.map (fun p => if p.1 == ip then (ip, v) else p)

/-- `AppRateLimiter::new`: empty maps, `last_reset = Instant::now()`,
`reset_interval = 60` seconds. -/
def AppRateLimiter.new (read_limit create_limit delete_limit : Nat) (now : Nat) :
    AppRateLimiterConfig × AppRateLimiterState :=
  (⟨read_limit, create_limit, delete_limit, 60⟩, ⟨[], [], [], now⟩)

/-- `AppRateLimiter::check_and_update`. First the lazy window rollover:
when `now - last_reset ≥ reset_interval`, all three maps are cleared and
`last_reset` is set to `now`. Then the class's map and limit are selected,
the entry is materialised (`or_insert(0)`), and the admission check runs: a
count at or above the limit is denied with the seconds until rollover
(count not incremented); otherwise the count is incremented and
`limit - new_count` is returned. -/
def check_and_update (cfg : AppRateLimiterConfig) (s : AppRateLimiterState) (now : Nat)
    (ip : IpAddr) (method : Method) : AppRateLimiterState × Except Nat Nat :=
  let s1 :=
    if cfg.reset_interval ≤ now - s.last_reset then
      { read_limiter := [], create_limiter := [], delete_limiter := [], last_reset := now }
    else s
  let cls := classOf method
  let limit := limitOf cfg cls
  let m1 := ipEntryOrInsert (mapOf s1 cls) ip
  let count := ipGet m1 ip
  if limit ≤ count then
    let elapsed := now - s1.last_reset
    (setMapOf s1 cls m1, Except.error ((cfg.reset_interval - elapsed) % 2 ^ 32))
  else
    (setMapOf s1 cls (ipSet m1 ip (count + 1)), Except.ok (limit - (count + 1)))

/-- `k` successive calls of `check_and_update` for one address and method,
all at the same instant `now`, keeping only the state. -/
def runN (cfg : AppRateLimiterConfig) (now : Nat) (ip : IpAddr) (method : Method)
    (s : AppRateLimiterState) : Nat → AppRateLimiterState
  | 0 => s
  | k + 1 => (check_and_update cfg (runN cfg now ip method s k) now ip method).1

/-- The stored-count invariant of claim C5: every address's count in every
class map is at most that class's limit. -/
def RLCountInv (cfg : AppRateLimiterConfig) (s : AppRateLimiterState) : Prop :=
  ∀ (c : OpClass) (ip : IpAddr), ipGet (mapOf s c) ip ≤ limitOf cfg c

end RustyBin

namespace RustyBin

/-- Claim C8: for every language, `create` with an empty payload returns the
`ClientEncryptionRequired` rejection and leaves the store unchanged (no
storage write happens before the rejection). -/
theorem create_paste_empty_payload_rejected (s : DbState) (samples : List (Fin 62))
    (now : DateTime) (fault : Bool) (language : String) :
    create_paste s samples now fault ⟨"", language⟩ =
      some (s, Except.error DbError.ClientEncryptionRequired) := by
  simp [create_paste, String.isEmpty]

/-- After filtering out every row with the given id, a lookup for that id
finds nothing. -/
theorem findRow_filter_self (s : DbState) (id : String) :
    findRow (s.filter (fun r => r.id != id)) id = none := by
  rw [findRow, List.find?_eq_none]
  intro r hr
  have h := (List.mem_filter.mp hr).2
  simp only [bne_iff_ne, ne_eq, decide_eq_true_eq] at h
  simp only [beq_iff_eq]
  exact h

/-- Claim C1, counterexample: on the empty store, no row with id `"abc"`
exists, yet `delete` returns `true` — the claim requires `false` for a
nonexistent id. -/
theorem delete_paste_counterexample :
    findRow [] "abc" = none ∧
    delete_paste [] noDeleteFaults "abc" = some ([], true) := by
  constructor <;> rfl

/-- Claim C1 (amended): a fault-free `delete` always removes every row with
the given id and returns `true`, whether or not such a row existed — the
boolean reports only that the DELETE statement executed without error, not
prior existence; a second delete of the same id again returns `true` on an
unchanged store, and a subsequent lookup finds nothing. -/
theorem delete_paste_removes_and_returns_true (s : DbState) (id : String) :
    delete_paste s noDeleteFaults id = some (s.filter (fun r => r.id != id), true) ∧
    findRow (s.filter (fun r => r.id != id)) id = none ∧
    delete_paste (s.filter (fun r => r.id != id)) noDeleteFaults id =
      some (s.filter (fun r => r.id != id), true) := by
  refine ⟨rfl, findRow_filter_self s id, ?_⟩
  simp only [delete_paste, noDeleteFaults]
  rw [List.filter_filter]
  simp

/-- Claim C10: whenever `get` returns a paste, its `id` field echoes the
lookup argument and its `encryption_version` is the constant 1 — both are
rebuilt by `get_paste`, never read back from the row. -/
theorem get_paste_echoes_id_and_version (s : DbState) (f : GetFaults) (t : DateTime)
    (id : String) (p : Paste) (h : get_paste s f t id = some p) :
    p.id = id ∧ p.encryption_version = ENCRYPTION_VERSION_CLIENT := by
  unfold get_paste at h
  rcases hg : get_encrypted_paste s f t id with _ | ⟨d, l, c⟩ <;> rw [hg] at h
  · exact absurd h (by simp)
  · rw [Option.some.injEq] at h
    exact ⟨by rw [← h], by rw [← h]⟩

/-- Witness for C10: a concrete version-1 row is returned with the lookup id
and version 1. -/
theorem get_paste_echoes_id_and_version_witness :
    (⟨"abc", "payload", "rust", ⟨0, 0⟩, ENCRYPTION_VERSION_CLIENT⟩ : Paste).id = "abc" ∧
    (⟨"abc", "payload", "rust", ⟨0, 0⟩, ENCRYPTION_VERSION_CLIENT⟩ : Paste).encryption_version =
      ENCRYPTION_VERSION_CLIENT :=
  get_paste_echoes_id_and_version [⟨"abc", "payload", "rust", 0, 1⟩] noFaults ⟨0, 0⟩ "abc"
    ⟨"abc", "payload", "rust", ⟨0, 0⟩, ENCRYPTION_VERSION_CLIENT⟩ (by decide)

/-- Claim C2, counterexample: a directly inserted row whose stored
`encryption_version` is 257 (≠ 1) is nevertheless served by `get`, because
the code truncates the stored 64-bit value `as u8` (257 mod 256 = 1) before
comparing with 1 — the claim requires `None` for every version other
than 1. -/
theorem get_version_gate_counterexample :
    ((257 : Int) ≠ (ENCRYPTION_VERSION_CLIENT : Int)) ∧
    get_paste [⟨"abc", "payload", "rust", 0, 257⟩] noFaults ⟨0, 0⟩ "abc" =
      some ⟨"abc", "payload", "rust", ⟨0, 0⟩, ENCRYPTION_VERSION_CLIENT⟩ := by
  constructor
  · decide
  · rfl

/-- Claim C2 (amended): `get` returns a value only when a row with the id
exists, the version read succeeded, and the stored `encryption_version` is
congruent to 1 modulo 256 (the stored 64-bit value is truncated `as u8`
before the comparison with 1); in particular an absent id, a version-0 row
(the schema default), and any version not ≡ 1 (mod 256) yield nothing. -/
theorem get_encrypted_paste_version_gate (s : DbState) (f : GetFaults) (t : DateTime)
    (id : String) (x : String × String × DateTime)
    (h : get_encrypted_paste s f t id = some x) :
    ∃ row, findRow s id = some row ∧ f.readVersionFails = false ∧
      row.encryption_version % 256 = (ENCRYPTION_VERSION_CLIENT : Int) := by
  unfold get_encrypted_paste at h
  cases h1 : f.prepareFails <;> rw [h1] at h
  case true => exact absurd h (by simp)
  cases h2 : f.bindFails <;> rw [h2] at h
  case true => exact absurd h (by simp)
  cases h3 : f.stepFails <;> rw [h3] at h
  case true => exact absurd h (by simp)
  simp only [Bool.false_eq_true, if_false] at h
  rcases hrow : findRow s id with _ | row <;> rw [hrow] at h
  · exact absurd h (by simp)
  · cases h4 : f.readDataFails <;> rw [h4] at h
    case true => exact absurd h (by simp)
    cases h5 : f.readLangFails <;> rw [h5] at h
    case true => exact absurd h (by simp)
    cases h6 : f.readCreatedFails <;> rw [h6] at h
    case true => exact absurd h (by simp)
    cases h7 : f.readVersionFails <;> rw [h7] at h
    case true => simp [ENCRYPTION_VERSION_CLIENT] at h
    simp only [Bool.false_eq_true, if_false] at h
    by_cases hv : row.encryption_version % 256 = (ENCRYPTION_VERSION_CLIENT : Int)
    · exact ⟨row, rfl, rfl, hv⟩
    · rw [if_neg hv] at h
      exact absurd h (by simp)

/-- Witness for the amended C2: on a concrete version-1 row, `get` returns a
value and the gate facts hold. -/
theorem get_encrypted_paste_version_gate_witness :
    ∃ row, findRow [⟨"abc", "payload", "rust", 0, 1⟩] "abc" = some row ∧
      noFaults.readVersionFails = false ∧
      row.encryption_version % 256 = (ENCRYPTION_VERSION_CLIENT : Int) :=
  get_encrypted_paste_version_gate [⟨"abc", "payload", "rust", 0, 1⟩] noFaults ⟨0, 0⟩ "abc"
    ("payload", "rust", ⟨0, 0⟩) (by decide)

/-- When the id is absent from a prefix of the table, lookup continues in
the suffix. -/
theorem findRow_append_of_none (s l : DbState) (id : String)
    (h : findRow s id = none) : findRow (s ++ l) id = findRow l id := by
  unfold findRow at *
  rw [List.find?_append, h, Option.none_or]

/-- A non-empty string has `isEmpty = false`. -/
theorem isEmpty_eq_false_of_ne (str : String) (h : str ≠ "") : str.isEmpty = false := by
  cases hie : str.isEmpty
  · rfl
  · exact absurd ((String.isEmpty_iff str).mp hie) h

/-- Claim C3, counterexample: creating a paste at an instant with a nonzero
sub-second part (here 100 s + 500000000 ns) succeeds, but the subsequent
`get` returns a paste whose `created_at` is truncated to whole seconds —
not equal to the created paste, contradicting the claimed read-after-write
equality of all fields. -/
theorem create_get_roundtrip_counterexample :
    create_paste [] (List.replicate 6 (0 : Fin 62)) ⟨100, 500000000⟩ false ⟨"payload", "rust"⟩ =
      some ([⟨"AAAAAA", "payload", "rust", 100, 1⟩],
            Except.ok ⟨"AAAAAA", "payload", "rust", ⟨100, 500000000⟩, 1⟩) ∧
    get_paste [⟨"AAAAAA", "payload", "rust", 100, 1⟩] noFaults ⟨0, 0⟩ "AAAAAA" =
      some ⟨"AAAAAA", "payload", "rust", ⟨100, 0⟩, 1⟩ ∧
    (⟨"AAAAAA", "payload", "rust", ⟨100, 0⟩, 1⟩ : Paste) ≠
      ⟨"AAAAAA", "payload", "rust", ⟨100, 500000000⟩, 1⟩ := by
  refine ⟨rfl, rfl, ?_⟩
  decide

/-- Claim C3 (amended): after a successful fault-free `create` of a
non-empty payload under a fresh id, `get` with the returned id returns a
paste equal to the created one in `id`, `data`, `language` and
`encryption_version`; its `created_at` is the created instant truncated to
whole seconds (so the full claimed equality holds exactly when the creation
instant has a zero sub-second part). -/
theorem create_then_get_roundtrip (s : DbState) (samples : List (Fin 62)) (now : DateTime)
    (pd : CreatePasteData) (t : DateTime)
    (hd : pd.data ≠ "") (hfresh : findRow s (genId samples) = none)
    (hlo : DateTime.minTimestamp ≤ now.secs) (hhi : now.secs ≤ DateTime.maxTimestamp) :
    create_paste s samples now false pd =
      some (s ++ [⟨genId samples, pd.data, pd.language, now.timestamp,
                   (ENCRYPTION_VERSION_CLIENT : Int)⟩],
            Except.ok ⟨genId samples, pd.data, pd.language, now, ENCRYPTION_VERSION_CLIENT⟩) ∧
    get_paste (s ++ [⟨genId samples, pd.data, pd.language, now.timestamp,
                      (ENCRYPTION_VERSION_CLIENT : Int)⟩]) noFaults t (genId samples) =
      some ⟨genId samples, pd.data, pd.language, ⟨now.secs, 0⟩, ENCRYPTION_VERSION_CLIENT⟩ := by
  have hie := isEmpty_eq_false_of_ne pd.data hd
  constructor
  · simp [create_paste, store_client_encrypted_paste, hie, hfresh]
  · have hfind := findRow_append_of_none s
      [⟨genId samples, pd.data, pd.language, now.timestamp, (ENCRYPTION_VERSION_CLIENT : Int)⟩]
      (genId samples) hfresh
    have hone : findRow
        [⟨genId samples, pd.data, pd.language, now.timestamp, (ENCRYPTION_VERSION_CLIENT : Int)⟩]
        (genId samples) =
        some ⟨genId samples, pd.data, pd.language, now.timestamp,
              (ENCRYPTION_VERSION_CLIENT : Int)⟩ := by
      simp [findRow]
    rw [get_paste, get_encrypted_paste]
    simp only [noFaults, Bool.false_eq_true, if_false]
    rw [hfind, hone]
    simp only [Bool.false_eq_true, if_false]
    have hgate : ((ENCRYPTION_VERSION_CLIENT : Int) % 256 = (ENCRYPTION_VERSION_CLIENT : Int)) := by
      decide
    rw [if_pos hgate]
    have hts : DateTime.fromTimestamp now.timestamp = some ⟨now.secs, 0⟩ := by
      show DateTime.fromTimestamp now.secs = some ⟨now.secs, 0⟩
      rw [DateTime.fromTimestamp, if_pos ⟨hlo, hhi⟩]
    rw [hts]
    simp only [Option.getD_some]

/-- Witness for the amended C3: a concrete create-then-get round trip at a
whole-second instant. -/
theorem create_then_get_roundtrip_witness :
    create_paste [] (List.replicate 6 (0 : Fin 62)) ⟨100, 0⟩ false ⟨"payload", "rust"⟩ =
      some ([] ++ [⟨genId (List.replicate 6 (0 : Fin 62)), "payload", "rust",
                   DateTime.timestamp ⟨100, 0⟩, (ENCRYPTION_VERSION_CLIENT : Int)⟩],
            Except.ok ⟨genId (List.replicate 6 (0 : Fin 62)), "payload", "rust", ⟨100, 0⟩,
                       ENCRYPTION_VERSION_CLIENT⟩) ∧
    get_paste ([] ++ [⟨genId (List.replicate 6 (0 : Fin 62)), "payload", "rust",
                      DateTime.timestamp ⟨100, 0⟩, (ENCRYPTION_VERSION_CLIENT : Int)⟩])
        noFaults ⟨0, 0⟩ (genId (List.replicate 6 (0 : Fin 62))) =
      some ⟨genId (List.replicate 6 (0 : Fin 62)), "payload", "rust", ⟨100, 0⟩,
            ENCRYPTION_VERSION_CLIENT⟩ :=
  create_then_get_roundtrip [] (List.replicate 6 (0 : Fin 62)) ⟨100, 0⟩ ⟨"payload", "rust"⟩
    ⟨0, 0⟩ (by decide) rfl (by decide) (by decide)

/-- Claim C4, counterexample: on a store that holds a servable version-1
row, a storage-layer failure (here a failed `prepare`) makes `get` return
`None` — byte-for-byte the same result as a lookup of an absent id on an
empty store — so storage errors on the read path are silently conflated
with "not found" rather than surfaced as a distinct error kind. -/
theorem storage_error_conflated_counterexample :
    get_encrypted_paste [⟨"abc", "payload", "rust", 0, 1⟩]
        ⟨true, false, false, false, false, false, false⟩ ⟨0, 0⟩ "abc" = none ∧
    get_encrypted_paste [] noFaults ⟨0, 0⟩ "abc" = none ∧
    get_encrypted_paste [⟨"abc", "payload", "rust", 0, 1⟩] noFaults ⟨0, 0⟩ "abc" =
      some ("payload", "rust", ⟨0, 0⟩) := by
  refine ⟨rfl, rfl, rfl⟩

/-- Claim C4 (amended): storage-layer failures are not uniformly surfaced
as a distinct error kind. During `create` (non-empty payload) a storage
failure panics — aborting with no normal result, distinct from both the
`ClientEncryptionRequired` rejection and success. But during `get` a failed
`prepare` yields `None`, indistinguishable from "not found", and during
`delete` a failed statement step yields `false` on an unchanged store, the
very value the spec assigns to "no such row". -/
theorem storage_error_propagation (s : DbState) (samples : List (Fin 62)) (now t : DateTime)
    (pd : CreatePasteData) (id : String) (hd : pd.data ≠ "") :
    create_paste s samples now true pd = none ∧
    (∀ f : GetFaults, f.prepareFails = true → get_encrypted_paste s f t id = none) ∧
    delete_paste s ⟨false, false, true⟩ id = some (s, false) := by
  have hie := isEmpty_eq_false_of_ne pd.data hd
  refine ⟨?_, ?_, rfl⟩
  · simp [create_paste, store_client_encrypted_paste, hie]
  · intro f hf
    rw [get_encrypted_paste, hf]
    rfl

/-- Witness for the amended C4 at concrete inputs. -/
theorem storage_error_propagation_witness :
    create_paste [] (List.replicate 6 (0 : Fin 62)) ⟨0, 0⟩ true ⟨"payload", "rust"⟩ = none ∧
    (∀ f : GetFaults, f.prepareFails = true →
      get_encrypted_paste [] f ⟨0, 0⟩ "abc" = none) ∧
    delete_paste [] ⟨false, false, true⟩ "abc" = some ([], false) :=
  storage_error_propagation [] (List.replicate 6 (0 : Fin 62)) ⟨0, 0⟩ ⟨0, 0⟩
    ⟨"payload", "rust"⟩ "abc" (by decide)

/-- Every character produced by the `Alphanumeric` sampler is an ASCII
letter or digit. -/
theorem sampleAlphanumeric_isAlphanum (n : Fin 62) :
    (sampleAlphanumeric n).isAlphanum = true := by
  revert n
  decide

/-- Claim C9: `create` with a non-empty payload (under a fresh id and no
storage fault) returns a paste whose id is the 6-character string built
from the first 6 alphanumeric samples — so exactly 6 characters, each in
{A–Z, a–z, 0–9} — whose `encryption_version` is 1, whose `data` and
`language` echo the inputs exactly, and whose `created_at` is the current
time passed to the call; the row is appended to the store. -/
theorem create_paste_accepts_nonempty (s : DbState) (samples : List (Fin 62))
    (now : DateTime) (pd : CreatePasteData)
    (hd : pd.data ≠ "") (hs : 6 ≤ samples.length)
    (hfresh : findRow s (genId samples) = none) :
    create_paste s samples now false pd =
      some (s ++ [⟨genId samples, pd.data, pd.language, now.timestamp,
                   (ENCRYPTION_VERSION_CLIENT : Int)⟩],
            Except.ok ⟨genId samples, pd.data, pd.language, now, ENCRYPTION_VERSION_CLIENT⟩) ∧
    (genId samples).length = 6 ∧
    (∀ c ∈ (genId samples).data, c.isAlphanum = true) := by
  have hie := isEmpty_eq_false_of_ne pd.data hd
  refine ⟨?_, ?_, ?_⟩
  · simp [create_paste, store_client_encrypted_paste, hie, hfresh]
  · show ((samples.take 6).map sampleAlphanumeric).length = 6
    rw [List.length_map, List.length_take]
    exact Nat.min_eq_left hs
  · intro c hc
    have hc2 : c ∈ (samples.take 6).map sampleAlphanumeric := hc
    obtain ⟨n, _, hn⟩ := List.mem_map.mp hc2
    rw [← hn]
    exact sampleAlphanumeric_isAlphanum n

/-- Witness for C9 at concrete inputs. -/
theorem create_paste_accepts_nonempty_witness :
    create_paste [] (List.replicate 6 (0 : Fin 62)) ⟨0, 0⟩ false ⟨"payload", "rust"⟩ =
      some ([] ++ [⟨genId (List.replicate 6 (0 : Fin 62)), "payload", "rust",
                   DateTime.timestamp ⟨0, 0⟩, (ENCRYPTION_VERSION_CLIENT : Int)⟩],
            Except.ok ⟨genId (List.replicate 6 (0 : Fin 62)), "payload", "rust", ⟨0, 0⟩,
                       ENCRYPTION_VERSION_CLIENT⟩) ∧
    (genId (List.replicate 6 (0 : Fin 62))).length = 6 ∧
    (∀ c ∈ (genId (List.replicate 6 (0 : Fin 62))).data, c.isAlphanum = true) :=
  create_paste_accepts_nonempty [] (List.replicate 6 (0 : Fin 62)) ⟨0, 0⟩
    ⟨"payload", "rust"⟩ (by decide) (by decide) rfl

/-! Helper lemmas about the rate limiter's counter maps. -/

/-- Materialising an entry with `or_insert(0)` changes no stored count. -/
theorem ipGet_ipEntryOrInsert (m : List (IpAddr × Nat)) (ip ip2 : IpAddr) :
    ipGet (ipEntryOrInsert m ip) ip2 = ipGet m ip2 := by
  unfold ipEntryOrInsert
  by_cases hmem : (m.find? (fun p => p.1 == ip)).isSome
  · rw [if_pos hmem]
  · rw [if_neg hmem]
    rw [Option.not_isSome_iff_eq_none] at hmem
    by_cases hip : ip = ip2
    · subst hip
      simp [ipGet, List.find?_cons, hmem]
    · have hf : (ip == ip2) = false := beq_eq_false_iff_ne.mpr hip
      simp [ipGet, List.find?_cons, hf]

/-- After `or_insert(0)`, the address is present in the map. -/
theorem ipEntryOrInsert_mem (m : List (IpAddr × Nat)) (ip : IpAddr) :
    ((ipEntryOrInsert m ip).find? (fun p => p.1 == ip)).isSome = true := by
  unfold ipEntryOrInsert
  by_cases hmem : (m.find? (fun p => p.1 == ip)).isSome
  · rw [if_pos hmem]
    exact hmem
  · rw [if_neg hmem]
    simp [List.find?_cons]

/-- Overwriting a present address's count stores exactly that count. -/
theorem ipGet_ipSet_self (m : List (IpAddr × Nat)) (ip : IpAddr) (v : Nat)
    (hmem : (m.find? (fun p => p.1 == ip)).isSome = true) :
    ipGet (ipSet m ip v) ip = v := by
  induction m with
  | nil => simp [List.find?] at hmem
  | cons hd tl ih =>
    by_cases hhd : (hd.1 == ip) = true
    · unfold ipSet ipGet
      simp only [List.map_cons, hhd, if_true, List.find?_cons, beq_self_eq_true]
    · rw [Bool.not_eq_true] at hhd
      rw [List.find?_cons, hhd] at hmem
      unfold ipSet ipGet
      simp only [List.map_cons, hhd, Bool.false_eq_true, if_false, List.find?_cons]
      exact ih hmem

/-- Overwriting one address's count leaves every other address's count
unchanged. -/
theorem ipGet_ipSet_ne (m : List (IpAddr × Nat)) (ip ip2 : IpAddr) (v : Nat)
    (hne : ip2 ≠ ip) :
    ipGet (ipSet m ip v) ip2 = ipGet m ip2 := by
  induction m with
  | nil => rfl
  | cons hd tl ih =>
    by_cases hhd : (hd.1 == ip) = true
    · have h2 : (ip == ip2) = false := beq_eq_false_iff_ne.mpr (fun h => hne h.symm)
      have h3 : (hd.1 == ip2) = false := by
        rw [beq_iff_eq] at hhd
        rw [hhd]
        exact h2
      unfold ipSet ipGet
      simp only [List.map_cons, hhd, if_true, List.find?_cons, h2, h3]
      exact ih
    · rw [Bool.not_eq_true] at hhd
      unfold ipSet ipGet
      simp only [List.map_cons, hhd, Bool.false_eq_true, if_false, List.find?_cons]
      by_cases h4 : (hd.1 == ip2) = true
      · simp only [h4]
      · rw [Bool.not_eq_true] at h4
        simp only [h4]
        exact ih

/-- Reading a class map back after replacing one: the replaced class sees
the new map, the others are untouched. -/
theorem mapOf_setMapOf (s : AppRateLimiterState) (c c' : OpClass)
    (m : List (IpAddr × Nat)) :
    mapOf (setMapOf s c m) c' = if c' = c then m else mapOf s c' := by
  cases c <;> cases c' <;> simp [mapOf, setMapOf]

/-- Replacing a class map does not touch `last_reset`. -/
theorem setMapOf_last_reset (s : AppRateLimiterState) (c : OpClass)
    (m : List (IpAddr × Nat)) :
    (setMapOf s c m).last_reset = s.last_reset := by
  cases c <;> rfl

/-- The state after the lazy window-rollover step at the top of
`check_and_update`: cleared with `last_reset = now` when a full interval has
elapsed, unchanged otherwise. -/
def rolledState (cfg : AppRateLimiterConfig) (s : AppRateLimiterState) (now : Nat) :
    AppRateLimiterState :=
  if cfg.reset_interval ≤ now - s.last_reset then ⟨[], [], [], now⟩ else s

/-- `check_and_update`, restated through `rolledState` (definitional). -/
theorem check_and_update_eq_rolled (cfg : AppRateLimiterConfig) (s : AppRateLimiterState)
    (now : Nat) (ip : IpAddr) (method : Method) :
    check_and_update cfg s now ip method =
      (if limitOf cfg (classOf method) ≤
          ipGet (ipEntryOrInsert (mapOf (rolledState cfg s now) (classOf method)) ip) ip then
        (setMapOf (rolledState cfg s now) (classOf method)
           (ipEntryOrInsert (mapOf (rolledState cfg s now) (classOf method)) ip),
         Except.error ((cfg.reset_interval - (now - (rolledState cfg s now).last_reset)) % 2 ^ 32))
      else
        (setMapOf (rolledState cfg s now) (classOf method)
           (ipSet (ipEntryOrInsert (mapOf (rolledState cfg s now) (classOf method)) ip) ip
             (ipGet (ipEntryOrInsert (mapOf (rolledState cfg s now) (classOf method)) ip) ip + 1)),
         Except.ok (limitOf cfg (classOf method) -
           (ipGet (ipEntryOrInsert (mapOf (rolledState cfg s now) (classOf method)) ip) ip + 1)))) :=
  rfl

/-- The cleared state satisfies the stored-count invariant. -/
theorem RLCountInv_cleared (cfg : AppRateLimiterConfig) (now : Nat) :
    RLCountInv cfg ⟨[], [], [], now⟩ := by
  intro c ip
  cases c <;> exact Nat.zero_le _

/-- Claim C5: the stored per-client count never exceeds the configured
limit of its class — the invariant is preserved by every call — and within
a window (no rollover pending) a denied call leaves every stored count of
every class unchanged. -/
theorem check_and_update_count_bounded (cfg : AppRateLimiterConfig)
    (s : AppRateLimiterState) (now : Nat) (ip : IpAddr) (method : Method)
    (hinv : RLCountInv cfg s) :
    RLCountInv cfg (check_and_update cfg s now ip method).1 ∧
    (now - s.last_reset < cfg.reset_interval →
      ∀ e, (check_and_update cfg s now ip method).2 = Except.error e →
        ∀ (c : OpClass) (ip2 : IpAddr),
          ipGet (mapOf (check_and_update cfg s now ip method).1 c) ip2 =
            ipGet (mapOf s c) ip2) := by
  have hinv1 : RLCountInv cfg (rolledState cfg s now) := by
    unfold rolledState
    split
    · exact RLCountInv_cleared cfg now
    · exact hinv
  simp only [check_and_update_eq_rolled]
  by_cases hlim : limitOf cfg (classOf method) ≤
      ipGet (ipEntryOrInsert (mapOf (rolledState cfg s now) (classOf method)) ip) ip
  · rw [if_pos hlim]
    constructor
    · intro c ip2
      rw [mapOf_setMapOf]
      by_cases hc : c = classOf method
      · rw [if_pos hc, ipGet_ipEntryOrInsert]
        rw [hc]
        exact hinv1 (classOf method) ip2
      · rw [if_neg hc]
        exact hinv1 c ip2
    · intro hnr _ _ c ip2
      have hs1 : rolledState cfg s now = s := by
        unfold rolledState
        rw [if_neg (not_le.mpr hnr)]
      rw [mapOf_setMapOf]
      by_cases hc : c = classOf method
      · rw [if_pos hc, ipGet_ipEntryOrInsert, hs1, hc]
      · rw [if_neg hc, hs1]
  · rw [if_neg hlim]
    constructor
    · intro c ip2
      rw [mapOf_setMapOf]
      by_cases hc : c = classOf method
      · rw [if_pos hc]
        by_cases hip2 : ip2 = ip
        · subst hip2
          rw [ipGet_ipSet_self _ _ _ (ipEntryOrInsert_mem _ _), hc]
          omega
        · rw [ipGet_ipSet_ne _ _ _ _ hip2, ipGet_ipEntryOrInsert, hc]
          exact hinv1 (classOf method) ip2
      · rw [if_neg hc]
        exact hinv1 c ip2
    · intro _ e he
      exact absurd he (by simp)

/-- Witness for C5: the invariant survives a concrete call on a fresh
limiter. -/
theorem check_and_update_count_bounded_witness :
    RLCountInv ⟨45, 15, 15, 60⟩
      (check_and_update ⟨45, 15, 15, 60⟩ ⟨[], [], [], 0⟩ 10 "1.2.3.4" Method.GET).1 :=
  (check_and_update_count_bounded ⟨45, 15, 15, 60⟩ ⟨[], [], [], 0⟩ 10 "1.2.3.4" Method.GET
    (RLCountInv_cleared ⟨45, 15, 15, 60⟩ 0)).1

/-- Within one window, `k` calls from a zero count keep `last_reset` fixed
and drive the stored count to exactly `k`, as long as `k` stays within the
limit. -/
theorem runN_spec (cfg : AppRateLimiterConfig) (s : AppRateLimiterState) (now : Nat)
    (ip : IpAddr) (method : Method)
    (h0 : ipGet (mapOf s (classOf method)) ip = 0)
    (hw : now - s.last_reset < cfg.reset_interval) :
    ∀ k, k ≤ limitOf cfg (classOf method) →
      (runN cfg now ip method s k).last_reset = s.last_reset ∧
      ipGet (mapOf (runN cfg now ip method s k) (classOf method)) ip = k := by
  intro k
  induction k with
  | zero => exact fun _ => ⟨rfl, h0⟩
  | succ k ih =>
    intro hk
    obtain ⟨hlr, hcnt⟩ := ih (Nat.le_of_succ_le hk)
    have hs1 : rolledState cfg (runN cfg now ip method s k) now = runN cfg now ip method s k := by
      unfold rolledState
      rw [hlr, if_neg (not_le.mpr hw)]
    have hcount : ipGet (ipEntryOrInsert
        (mapOf (rolledState cfg (runN cfg now ip method s k) now) (classOf method)) ip) ip = k := by
      rw [hs1, ipGet_ipEntryOrInsert, hcnt]
    have hlim : ¬ (limitOf cfg (classOf method) ≤ k) := by omega
    simp only [runN]
    rw [check_and_update_eq_rolled, hcount, if_neg hlim]
    constructor
    · rw [setMapOf_last_reset, hs1, hlr]
    · rw [mapOf_setMapOf, if_pos rfl,
        ipGet_ipSet_self _ _ _ (ipEntryOrInsert_mem _ _)]

/-- Claim C6: starting from a zero stored count and staying within one
window, every one of `k ≤ limit` successive requests of one class from one
address is allowed, and the `k`-th call returns `remaining = limit - k`
(so `remaining` strictly decreases by one per call). -/
theorem check_and_update_under_limit_allows (cfg : AppRateLimiterConfig)
    (s : AppRateLimiterState) (now : Nat) (ip : IpAddr) (method : Method) (k : Nat)
    (h0 : ipGet (mapOf s (classOf method)) ip = 0)
    (hw : now - s.last_reset < cfg.reset_interval)
    (hk1 : 1 ≤ k) (hk : k ≤ limitOf cfg (classOf method)) :
    (check_and_update cfg (runN cfg now ip method s (k - 1)) now ip method).2 =
      Except.ok (limitOf cfg (classOf method) - k) := by
  obtain ⟨hlr, hcnt⟩ :=
    runN_spec cfg s now ip method h0 hw (k - 1) (le_trans (Nat.sub_le k 1) hk)
  have hs1 : rolledState cfg (runN cfg now ip method s (k - 1)) now =
      runN cfg now ip method s (k - 1) := by
    unfold rolledState
    rw [hlr, if_neg (not_le.mpr hw)]
  have hcount : ipGet (ipEntryOrInsert
      (mapOf (rolledState cfg (runN cfg now ip method s (k - 1)) now) (classOf method)) ip) ip =
      k - 1 := by
    rw [hs1, ipGet_ipEntryOrInsert, hcnt]
  have hlim : ¬ (limitOf cfg (classOf method) ≤ k - 1) := by omega
  rw [check_and_update_eq_rolled, hcount, if_neg hlim]
  have hk2 : k - 1 + 1 = k := by omega
  rw [hk2]

/-- Witness for C6: on a fresh limiter with create limit 15, the second
create call is allowed with `remaining = 13`. -/
theorem check_and_update_under_limit_allows_witness :
    (check_and_update ⟨45, 15, 15, 60⟩
        (runN ⟨45, 15, 15, 60⟩ 10 "1.2.3.4" Method.POST ⟨[], [], [], 0⟩ (2 - 1))
        10 "1.2.3.4" Method.POST).2 =
      Except.ok (limitOf ⟨45, 15, 15, 60⟩ (classOf Method.POST) - 2) :=
  check_and_update_under_limit_allows ⟨45, 15, 15, 60⟩ ⟨[], [], [], 0⟩ 10 "1.2.3.4"
    Method.POST 2 rfl (by decide) (by decide) (by decide)

/-- Claim C7: when a full window has elapsed, `check_and_update` clears all
three class maps together and sets the window start to `now` before the
admission check — so any client (even one previously denied) is allowed
with the full fresh limit (`remaining = limit - 1`), the called class map
holds exactly the one fresh entry, and the other two class maps are empty,
no matter how many windows passed without traffic. -/
theorem check_and_update_rollover_resets (cfg : AppRateLimiterConfig)
    (s : AppRateLimiterState) (now : Nat) (ip : IpAddr) (method : Method)
    (hroll : cfg.reset_interval ≤ now - s.last_reset)
    (hpos : 1 ≤ limitOf cfg (classOf method)) :
    (check_and_update cfg s now ip method).2 =
      Except.ok (limitOf cfg (classOf method) - 1) ∧
    (check_and_update cfg s now ip method).1.last_reset = now ∧
    mapOf (check_and_update cfg s now ip method).1 (classOf method) = [(ip, 1)] ∧
    (∀ c : OpClass, c ≠ classOf method →
      mapOf (check_and_update cfg s now ip method).1 c = []) := by
  have hs1 : rolledState cfg s now = ⟨[], [], [], now⟩ := by
    unfold rolledState
    rw [if_pos hroll]
  have hmap : mapOf (⟨[], [], [], now⟩ : AppRateLimiterState) (classOf method) = [] := by
    cases classOf method <;> rfl
  have hent : ipEntryOrInsert [] ip = [(ip, 0)] := rfl
  have hget : ipGet [(ip, 0)] ip = 0 := by
    simp [ipGet, List.find?_cons]
  have hset : ipSet [(ip, 0)] ip (0 + 1) = [(ip, 1)] := by
    simp [ipSet]
  have hlim : ¬ (limitOf cfg (classOf method) ≤ 0) := by omega
  rw [check_and_update_eq_rolled, hs1, hmap, hent, hget, if_neg hlim, hset]
  refine ⟨rfl, ?_, ?_, ?_⟩
  · rw [setMapOf_last_reset]
  · rw [mapOf_setMapOf, if_pos rfl]
  · intro c hc
    rw [mapOf_setMapOf, if_neg hc]
    cases c <;> rfl

/-- Witness for C7: a client denied at count 45/45 is allowed again with
the full fresh read limit once the window has elapsed, and all three maps
are reset. -/
theorem check_and_update_rollover_resets_witness :
    (check_and_update ⟨45, 15, 15, 60⟩ ⟨[("1.2.3.4", 45)], [("1.2.3.4", 7)], [], 0⟩ 60
        "1.2.3.4" Method.GET).2 =
      Except.ok (limitOf ⟨45, 15, 15, 60⟩ (classOf Method.GET) - 1) ∧
    (check_and_update ⟨45, 15, 15, 60⟩ ⟨[("1.2.3.4", 45)], [("1.2.3.4", 7)], [], 0⟩ 60
        "1.2.3.4" Method.GET).1.last_reset = 60 ∧
    mapOf (check_and_update ⟨45, 15, 15, 60⟩ ⟨[("1.2.3.4", 45)], [("1.2.3.4", 7)], [], 0⟩ 60
        "1.2.3.4" Method.GET).1 (classOf Method.GET) = [("1.2.3.4", 1)] ∧
    (∀ c : OpClass, c ≠ classOf Method.GET →
      mapOf (check_and_update ⟨45, 15, 15, 60⟩ ⟨[("1.2.3.4", 45)], [("1.2.3.4", 7)], [], 0⟩ 60
        "1.2.3.4" Method.GET).1 c = []) :=
  check_and_update_rollover_resets ⟨45, 15, 15, 60⟩
    ⟨[("1.2.3.4", 45)], [("1.2.3.4", 7)], [], 0⟩ 60 "1.2.3.4" Method.GET
    (by decide) (by decide)

end RustyBin
